import Mathlib

/-!
Verification of the lazy library loader (`src/assets/js/lazy-loader.js`)
and the event listener manager (`performance-utils.js`) of the
www.fecredit.com client-side script collection.

The JavaScript is single-threaded and event-driven, so we embed it as a
state machine: each synchronous operation (a `loadScript` call, a script
`onload`/`onerror` event firing, an `unload` call, an event-manager call)
is a pure function on an explicit state.  JS `Map` objects are embedded
as insertion-ordered association lists; JS values relevant to the loader
(the boolean `true`, `undefined`, and opaque library handles) are the
`Value` type; the caller-supplied `checkFn` closures (all of the form
`() => window.something` in the source) are embedded as the name of the
global binding they probe, evaluated against an explicit global
environment `GEnv`.
-/

/-! ### Association-list embedding of JS `Map` -/

/-- `Map.get` / lookup: first binding for key `k`. -/
def mapGet {κ α : Type} [DecidableEq κ] (m : List (κ × α)) (k : κ) : Option α :=
  match m with
  | [] => none
  | (k', v) :: rest => if k' = k then some v else mapGet rest k

/-- `Map.set`: replace the binding in place (JS preserves insertion order
on overwrite) or append a fresh binding. -/
def mapSet {κ α : Type} [DecidableEq κ] (m : List (κ × α)) (k : κ) (v : α) :
    List (κ × α) :=
  match m with
  | [] => [(k, v)]
  | (k', v') :: rest => if k' = k then (k, v) :: rest else (k', v') :: mapSet rest k v

/-- `Map.delete`: remove every binding for `k` (at most one in states the
code produces, since `mapSet` never duplicates a key). -/
def mapDel {κ α : Type} [DecidableEq κ] (m : List (κ × α)) (k : κ) : List (κ × α) :=
  m.filter (fun p => p.1 ≠ k)

/-- `Map.has`. -/
def mapHas {κ α : Type} [DecidableEq κ] (m : List (κ × α)) (k : κ) : Bool :=
  (mapGet m k).isSome

theorem mapGet_mapSet_self {κ α : Type} [DecidableEq κ]
    (m : List (κ × α)) (k : κ) (v : α) : mapGet (mapSet m k v) k = some v := by
  induction m with
  | nil => simp [mapSet, mapGet]
  | cons p rest ih =>
      by_cases h : p.1 = k
      · simp [mapSet, mapGet, h]
      · simp [mapSet, mapGet, h, ih]

theorem mapGet_mapSet_other {κ α : Type} [DecidableEq κ]
    (m : List (κ × α)) (k k' : κ) (v : α) (hne : k' ≠ k) :
    mapGet (mapSet m k v) k' = mapGet m k' := by
  induction m with
  | nil => simp [mapSet, mapGet, hne.symm]
  | cons p rest ih =>
      by_cases h : p.1 = k
      · subst h
        simp [mapSet, mapGet, hne.symm]
      · by_cases h' : p.1 = k'
        · simp [mapSet, mapGet, h, h', hne]
        · simp [mapSet, mapGet, h, h', ih]

theorem mapGet_mapDel_self {κ α : Type} [DecidableEq κ]
    (m : List (κ × α)) (k : κ) : mapGet (mapDel m k) k = none := by
  induction m with
  | nil => simp [mapDel, mapGet]
  | cons p rest ih =>
      by_cases h : p.1 = k
      · simpa [mapDel, List.filter_cons, h] using ih
      · simpa [mapDel, List.filter_cons, h, mapGet] using ih

theorem mapGet_mapDel_other {κ α : Type} [DecidableEq κ]
    (m : List (κ × α)) (k k' : κ) (hne : k' ≠ k) :
    mapGet (mapDel m k) k' = mapGet m k' := by
  induction m with
  | nil => simp [mapDel, mapGet]
  | cons p rest ih =>
      by_cases h : p.1 = k
      · subst h
        simpa [mapDel, List.filter_cons, mapGet, hne.symm] using ih
      · by_cases h' : p.1 = k'
        · simp [mapDel, List.filter_cons, h, h', mapGet, hne]
        · simpa [mapDel, List.filter_cons, h, h', mapGet] using ih

/-! ### JS values and global environment -/

/-- The JS values the loader handles: the literal `true` it stores as a
success sentinel, `undefined` (the only falsy value the presence checks
can produce), and opaque truthy library handles. -/
inductive Value where
  | vtrue : Value
  | vundef : Value
  | vhandle : Nat → Value
deriving DecidableEq, Repr

/-- JS truthiness of a `Value`. -/
def Value.truthy : Value → Bool
  | .vundef => false
  | _ => true

/-- Global environment: the current value of each global binding
(`window.cv`, `window.jspdf`, ...). -/
def GEnv : Type := String → Value

/-- A `checkFn` argument: `none` is the JS `null` default, `some g`
embeds the closure `() => window[g]` used throughout the source. -/
def CheckFn : Type := Option String

/-- The value `checkFn()` returns in environment `env` (`undefined` when
there is no check — only queried when the check exists). -/
def checkVal (env : GEnv) (check : CheckFn) : Value :=
  match check with
  | none => .vundef
  | some g => env g

/-- Truthiness of `checkFn && checkFn()`. -/
def truthyCheck (env : GEnv) (check : CheckFn) : Bool :=
  match check with
  | none => false
  | some g => (env g).truthy

/-! ### Loader state -/

/-- State of one JS promise created by `loadScript`. -/
inductive PromiseState where
  | pending : PromiseState
  | resolved : Value → PromiseState
  | rejected : String → PromiseState
deriving DecidableEq, Repr

/-- One `<script>` element injected by `loadScript`, with the closure
data its `onload`/`onerror` handlers captured.  `settled` records that
one of the two handlers has already fired (a script element fires at most
one of `load`/`error`). -/
structure Script where
  name : String
  url : String
  check : CheckFn
  promiseId : Nat
  settled : Bool

/-- The fields of a `LazyLibraryLoader` instance, together with the
promises and script elements it has created.  `promises` tracks every
promise `loadScript` returned by reference, keyed by an id; `nextPromiseId`
is the allocator for those ids. -/
structure LoaderState where
  loadedLibraries : List (String × Value)
  loadingPromises : List (String × Nat)
  scripts : List Script
  promises : List (Nat × PromiseState)
  nextPromiseId : Nat

/-- `new LazyLibraryLoader()`. -/
def initLoader : LoaderState :=
  { loadedLibraries := [], loadingPromises := [], scripts := [],
    promises := [], nextPromiseId := 0 }

/-- What a `loadScript` call hands back to its caller: either a fresh
already-resolved promise (`Promise.resolve(v)`) or a reference to a
tracked pending promise. -/
inductive CallResult where
  | immediate : Value → CallResult
  | promiseRef : Nat → CallResult
deriving DecidableEq, Repr

/-- `LazyLibraryLoader.loadScript(name, url, checkFn)` — the synchronous
part of the call (everything up to returning the promise; the promise
executor runs synchronously in JS).  Mirrors the source branch by branch:

1. `if (checkFn && checkFn())` — store `true` under `name`, return
   `Promise.resolve(checkFn())`;
2. `if (this.loadedLibraries.has(name))` — return
   `Promise.resolve(this.loadedLibraries.get(name))`;
3. `if (this.loadingPromises.has(name))` — return the stored promise;
4. otherwise create the promise, inject a script element for `url`, store
   the promise under `name` and return it. -/
def loadScript (env : GEnv) (name url : String) (check : CheckFn)
    (s : LoaderState) : LoaderState × CallResult :=
  if truthyCheck env check then
    ({ s with loadedLibraries := mapSet s.loadedLibraries name .vtrue },
     .immediate (checkVal env check))
  else if mapHas s.loadedLibraries name then
    (s, .immediate ((mapGet s.loadedLibraries name).getD .vundef))
  else
    match mapGet s.loadingPromises name with
    | some pid => (s, .promiseRef pid)
    | none =>
        let pid := s.nextPromiseId
        ({ s with
            scripts := s.scripts ++ [⟨name, url, check, pid, false⟩],
            promises := s.promises ++ [(pid, .pending)],
            nextPromiseId := pid + 1,
            loadingPromises := mapSet s.loadingPromises name pid },
         .promiseRef pid)

/-- The script element at index `i` fires its `onload` handler in
environment `env`:
`const lib = checkFn ? checkFn() : true;`
`this.loadedLibraries.set(name, lib); this.loadingPromises.delete(name);`
`resolve(lib);`.  A missing or already-settled script fires nothing. -/
def fireOnload (env : GEnv) (i : Nat) (s : LoaderState) : LoaderState :=
  match s.scripts.get? i with
  | none => s
  | some sc =>
      if sc.settled then s
      else
        let lib := match sc.check with
          | none => Value.vtrue
          | some g => env g
        { s with
            loadedLibraries := mapSet s.loadedLibraries sc.name lib,
            loadingPromises := mapDel s.loadingPromises sc.name,
            promises := mapSet s.promises sc.promiseId (.resolved lib),
            scripts := s.scripts.set i { sc with settled := true } }

/-- The script element at index `i` fires its `onerror` handler:
`this.loadingPromises.delete(name);`
`reject(new Error(...))`. -/
def fireOnerror (i : Nat) (s : LoaderState) : LoaderState :=
  match s.scripts.get? i with
  | none => s
  | some sc =>
      if sc.settled then s
      else
        { s with
            loadingPromises := mapDel s.loadingPromises sc.name,
            promises := mapSet s.promises sc.promiseId
              (.rejected ("Failed to load library: " ++ sc.name ++ " from " ++ sc.url)),
            scripts := s.scripts.set i { sc with settled := true } }

/-- `LazyLibraryLoader.isLoaded(name)` — `this.loadedLibraries.has(name)`.
A pure observer: it takes no continuation state and can trigger nothing. -/
def isLoaded (s : LoaderState) (name : String) : Bool :=
  mapHas s.loadedLibraries name

/-- `LazyLibraryLoader.unload(name)` — delete `name` from both maps. -/
def unload (name : String) (s : LoaderState) : LoaderState :=
  { s with
      loadedLibraries := mapDel s.loadedLibraries name,
      loadingPromises := mapDel s.loadingPromises name }

/-! ### Derived `mapHas` lemmas -/

theorem mapHas_mapSet_self {κ α : Type} [DecidableEq κ]
    (m : List (κ × α)) (k : κ) (v : α) : mapHas (mapSet m k v) k = true := by
  simp [mapHas, mapGet_mapSet_self]

theorem mapHas_mapSet_other {κ α : Type} [DecidableEq κ]
    (m : List (κ × α)) (k k' : κ) (v : α) (hne : k' ≠ k) :
    mapHas (mapSet m k v) k' = mapHas m k' := by
  simp [mapHas, mapGet_mapSet_other m k k' v hne]

theorem mapHas_mapDel_self {κ α : Type} [DecidableEq κ]
    (m : List (κ × α)) (k : κ) : mapHas (mapDel m k) k = false := by
  simp [mapHas, mapGet_mapDel_self]

theorem mapHas_mapDel_other {κ α : Type} [DecidableEq κ]
    (m : List (κ × α)) (k k' : κ) (hne : k' ≠ k) :
    mapHas (mapDel m k) k' = mapHas m k' := by
  simp [mapHas, mapGet_mapDel_other m k k' hne]

/-! ### Test environments used by concrete instantiations -/

/-- Environment in which only the global `cv` is bound, to an opaque
handle. -/
def envCV : GEnv := fun x => if x = "cv" then Value.vhandle 1 else Value.vundef

/-- Environment with no global bound. -/
def envEmpty : GEnv := fun _ => Value.vundef

/-! ### Repeated calls for one library -/

/-- A sequence of `loadScript` calls for one library name, issued
back-to-back on the JS event loop: each list element gives the
environment, url and check of one call.  Returns the final state and the
results handed to the callers, in call order. -/
def callMany (name : String) (calls : List (GEnv × String × CheckFn))
    (s : LoaderState) : LoaderState × List CallResult :=
  match calls with
  | [] => (s, [])
  | c :: rest =>
      let r := loadScript c.1 name c.2.1 c.2.2 s
      let out := callMany name rest r.1
      (out.1, r.2 :: out.2)

/-- A `loadScript` call while a load for `name` is in flight (and the
library is not cached and the presence check is not truthy) returns the
stored pending promise and changes nothing. -/
theorem loadScript_while_loading (env : GEnv) (name url : String)
    (check : CheckFn) (s : LoaderState) (pid : Nat)
    (hp : mapGet s.loadingPromises name = some pid)
    (hnl : mapHas s.loadedLibraries name = false)
    (hc : truthyCheck env check = false) :
    loadScript env name url check s = (s, CallResult.promiseRef pid) := by
  simp [loadScript, hc, hnl, hp]

/-- C1: while a load for `name` is in flight (the record is not `Loaded`,
a pending promise is stored, and no call's presence check is truthy), any
number of further `loadScript` calls for `name` all return the very same
pending promise, leave the state — in particular the list of injected
script elements — unchanged, so no second load attempt occurs; since all
callers hold the same promise they necessarily receive the identical
outcome when it settles. -/
theorem loadScript_concurrent_dedup (name : String)
    (calls : List (GEnv × String × CheckFn)) (s : LoaderState) (pid : Nat)
    (hp : mapGet s.loadingPromises name = some pid)
    (hnl : mapHas s.loadedLibraries name = false)
    (hc : ∀ c ∈ calls, truthyCheck c.1 c.2.2 = false) :
    (callMany name calls s).1 = s ∧
    (callMany name calls s).1.scripts = s.scripts ∧
    ∀ r ∈ (callMany name calls s).2, r = CallResult.promiseRef pid := by
  induction calls with
  | nil => exact ⟨rfl, rfl, by simp [callMany]⟩
  | cons c rest ih =>
      have h1 : loadScript c.1 name c.2.1 c.2.2 s = (s, CallResult.promiseRef pid) :=
        loadScript_while_loading c.1 name c.2.1 c.2.2 s pid hp hnl
          (hc c (List.mem_cons_self c rest))
      have ih2 := ih (fun d hd => hc d (List.mem_cons_of_mem c hd))
      refine ⟨?_, ?_, ?_⟩
      · simpa [callMany, h1] using ih2.1
      · simpa [callMany, h1] using congrArg LoaderState.scripts ih2.1
      · intro r hr
        have hr' : r ∈ CallResult.promiseRef pid :: (callMany name rest s).2 := by
          simpa [callMany, h1] using hr
        cases hr' with
        | head => rfl
        | tail _ hmem => exact ih2.2.2 r hmem

/-- Witness for `loadScript_concurrent_dedup`: one in-flight load of
`pdf`, then two further concurrent calls. -/
theorem loadScript_concurrent_dedup_witness :
    mapGet (loadScript envEmpty "pdf" "/lib/pdf.js" none initLoader).1.loadingPromises
        "pdf" = some 0 ∧
    mapHas (loadScript envEmpty "pdf" "/lib/pdf.js" none initLoader).1.loadedLibraries
        "pdf" = false ∧
    ((callMany "pdf" [(envEmpty, "/lib/pdf.js", none), (envEmpty, "/lib/pdf.js", some "pdfLib")]
        (loadScript envEmpty "pdf" "/lib/pdf.js" none initLoader).1).1
      = (loadScript envEmpty "pdf" "/lib/pdf.js" none initLoader).1 ∧
     (callMany "pdf" [(envEmpty, "/lib/pdf.js", none), (envEmpty, "/lib/pdf.js", some "pdfLib")]
        (loadScript envEmpty "pdf" "/lib/pdf.js" none initLoader).1).1.scripts
      = (loadScript envEmpty "pdf" "/lib/pdf.js" none initLoader).1.scripts ∧
     ∀ r ∈ (callMany "pdf" [(envEmpty, "/lib/pdf.js", none), (envEmpty, "/lib/pdf.js", some "pdfLib")]
        (loadScript envEmpty "pdf" "/lib/pdf.js" none initLoader).1).2,
       r = CallResult.promiseRef 0) :=
  ⟨rfl, rfl,
   loadScript_concurrent_dedup "pdf"
     [(envEmpty, "/lib/pdf.js", none), (envEmpty, "/lib/pdf.js", some "pdfLib")]
     (loadScript envEmpty "pdf" "/lib/pdf.js" none initLoader).1 0 rfl rfl
     (by
       intro c hcm
       cases hcm with
       | head => rfl
       | tail _ h2 =>
           cases h2 with
           | head => rfl
           | tail _ h3 => cases h3)⟩

/-- C3: when the presence check is truthy at call time, `loadScript`
injects no script (scripts, pending promises and promise states are all
unchanged — no load attempt, no network activity), records the library so
that `isLoaded name` becomes true, and resolves with the handle the check
returned. -/
theorem loadScript_presence_check (env : GEnv) (name url g : String)
    (s : LoaderState) (h : (env g).truthy = true) :
    (loadScript env name url (some g) s).1.scripts = s.scripts ∧
    (loadScript env name url (some g) s).1.loadingPromises = s.loadingPromises ∧
    (loadScript env name url (some g) s).1.promises = s.promises ∧
    isLoaded (loadScript env name url (some g) s).1 name = true ∧
    (loadScript env name url (some g) s).2 = CallResult.immediate (env g) := by
  simp [loadScript, truthyCheck, h, checkVal, isLoaded, mapHas_mapSet_self]

/-- Witness for `loadScript_presence_check`: loading `opencv` while
`window.cv` is already bound. -/
theorem loadScript_presence_check_witness :
    (envCV "cv").truthy = true ∧
    ((loadScript envCV "opencv" "/assets/js/opencv.js" (some "cv") initLoader).1.scripts
        = initLoader.scripts ∧
     (loadScript envCV "opencv" "/assets/js/opencv.js" (some "cv") initLoader).1.loadingPromises
        = initLoader.loadingPromises ∧
     (loadScript envCV "opencv" "/assets/js/opencv.js" (some "cv") initLoader).1.promises
        = initLoader.promises ∧
     isLoaded (loadScript envCV "opencv" "/assets/js/opencv.js" (some "cv") initLoader).1
        "opencv" = true ∧
     (loadScript envCV "opencv" "/assets/js/opencv.js" (some "cv") initLoader).2
        = CallResult.immediate (envCV "cv")) :=
  ⟨rfl, loadScript_presence_check envCV "opencv" "/assets/js/opencv.js" "cv" initLoader rfl⟩

theorem get?_append_length {α : Type} (l : List α) (a : α) :
    (l ++ [a]).get? l.length = some a := by
  induction l with
  | nil => rfl
  | cons x xs ih => exact ih

/-- C2: if the script injected for a library fails to load (`onerror`
fires for an unsettled script element, the library not having been cached
meanwhile), then the promise every awaiting caller holds is rejected with
a message naming both the library and its source url, `isLoaded` is false
afterwards, the pending-promise record is cleared, and a subsequent
`loadScript` call for the same name starts a fresh load attempt —
injecting a new script element — which can then succeed normally
(`onload` resolves it and `isLoaded` becomes true): failure is not
cached. -/
theorem loadScript_failure_recovery
    (s : LoaderState) (i : Nat) (sc : Script)
    (env2 env3 : GEnv) (url2 : String) (s1 s2 : LoaderState)
    (hsc : s.scripts.get? i = some sc)
    (hset : sc.settled = false)
    (hnl : mapHas s.loadedLibraries sc.name = false)
    (hs1 : s1 = fireOnerror i s)
    (hs2 : s2 = (loadScript env2 sc.name url2 none s1).1) :
    mapGet s1.promises sc.promiseId
      = some (PromiseState.rejected
          ("Failed to load library: " ++ sc.name ++ " from " ++ sc.url)) ∧
    isLoaded s1 sc.name = false ∧
    mapGet s1.loadingPromises sc.name = none ∧
    (loadScript env2 sc.name url2 none s1).2
      = CallResult.promiseRef s1.nextPromiseId ∧
    s2.scripts = s1.scripts ++ [⟨sc.name, url2, none, s1.nextPromiseId, false⟩] ∧
    mapGet (fireOnload env3 s1.scripts.length s2).promises s1.nextPromiseId
      = some (PromiseState.resolved Value.vtrue) ∧
    isLoaded (fireOnload env3 s1.scripts.length s2) sc.name = true := by
  have hfe : fireOnerror i s =
      { s with
          loadingPromises := mapDel s.loadingPromises sc.name,
          promises := mapSet s.promises sc.promiseId
            (.rejected ("Failed to load library: " ++ sc.name ++ " from " ++ sc.url)),
          scripts := s.scripts.set i { sc with settled := true } } := by
    have hsc' : s.scripts[i]? = some sc := by simpa using hsc
    simp [fireOnerror, hsc', hset]
  subst hs1
  have h1 : mapGet (fireOnerror i s).promises sc.promiseId
      = some (PromiseState.rejected
          ("Failed to load library: " ++ sc.name ++ " from " ++ sc.url)) := by
    rw [hfe]; exact mapGet_mapSet_self _ _ _
  have h2 : isLoaded (fireOnerror i s) sc.name = false := by
    rw [hfe]; simp [isLoaded, hnl]
  have h3 : mapGet (fireOnerror i s).loadingPromises sc.name = none := by
    rw [hfe]; exact mapGet_mapDel_self _ _
  have hcall : loadScript env2 sc.name url2 none (fireOnerror i s) =
      ({ fireOnerror i s with
          scripts := (fireOnerror i s).scripts
            ++ [⟨sc.name, url2, none, (fireOnerror i s).nextPromiseId, false⟩],
          promises := (fireOnerror i s).promises
            ++ [((fireOnerror i s).nextPromiseId, .pending)],
          nextPromiseId := (fireOnerror i s).nextPromiseId + 1,
          loadingPromises := mapSet (fireOnerror i s).loadingPromises sc.name
            (fireOnerror i s).nextPromiseId },
       .promiseRef (fireOnerror i s).nextPromiseId) := by
    have hl : mapHas (fireOnerror i s).loadedLibraries sc.name = false := by
      simpa [isLoaded] using h2
    simp [loadScript, truthyCheck, hl, h3]
  have h4 : (loadScript env2 sc.name url2 none (fireOnerror i s)).2
      = CallResult.promiseRef (fireOnerror i s).nextPromiseId := by
    rw [hcall]
  have h5 : s2.scripts = (fireOnerror i s).scripts
      ++ [⟨sc.name, url2, none, (fireOnerror i s).nextPromiseId, false⟩] := by
    rw [hs2, hcall]
  have hget : s2.scripts.get? (fireOnerror i s).scripts.length
      = some ⟨sc.name, url2, none, (fireOnerror i s).nextPromiseId, false⟩ := by
    rw [h5]; exact get?_append_length _ _
  have hol : fireOnload env3 (fireOnerror i s).scripts.length s2 =
      { s2 with
          loadedLibraries := mapSet s2.loadedLibraries sc.name Value.vtrue,
          loadingPromises := mapDel s2.loadingPromises sc.name,
          promises := mapSet s2.promises (fireOnerror i s).nextPromiseId
            (.resolved Value.vtrue),
          scripts := s2.scripts.set (fireOnerror i s).scripts.length
            ⟨sc.name, url2, none, (fireOnerror i s).nextPromiseId, true⟩ } := by
    have hget' : s2.scripts[(fireOnerror i s).scripts.length]?
        = some ⟨sc.name, url2, none, (fireOnerror i s).nextPromiseId, false⟩ := by
      simpa using hget
    simp [fireOnload, hget']
  refine ⟨h1, h2, h3, h4, h5, ?_, ?_⟩
  · rw [hol]; exact mapGet_mapSet_self _ _ _
  · rw [hol]; simp [isLoaded, mapHas_mapSet_self]

/-- Witness for `loadScript_failure_recovery`: a failed load of `x` from
`bad/url.js` followed by a successful reload from `good/url.js`. -/
theorem loadScript_failure_recovery_witness :
    (loadScript envEmpty "x" "bad/url.js" none initLoader).1.scripts.get? 0
      = some ⟨"x", "bad/url.js", none, 0, false⟩ ∧
    mapHas (loadScript envEmpty "x" "bad/url.js" none initLoader).1.loadedLibraries
      "x" = false ∧
    (mapGet (fireOnerror 0 (loadScript envEmpty "x" "bad/url.js" none initLoader).1).promises 0
       = some (PromiseState.rejected "Failed to load library: x from bad/url.js") ∧
     isLoaded (fireOnerror 0 (loadScript envEmpty "x" "bad/url.js" none initLoader).1) "x"
       = false ∧
     mapGet (fireOnerror 0 (loadScript envEmpty "x" "bad/url.js" none initLoader).1).loadingPromises
       "x" = none ∧
     (loadScript envEmpty "x" "good/url.js" none
        (fireOnerror 0 (loadScript envEmpty "x" "bad/url.js" none initLoader).1)).2
       = CallResult.promiseRef
           (fireOnerror 0 (loadScript envEmpty "x" "bad/url.js" none initLoader).1).nextPromiseId ∧
     (loadScript envEmpty "x" "good/url.js" none
        (fireOnerror 0 (loadScript envEmpty "x" "bad/url.js" none initLoader).1)).1.scripts
       = (fireOnerror 0 (loadScript envEmpty "x" "bad/url.js" none initLoader).1).scripts
         ++ [⟨"x", "good/url.js", none,
              (fireOnerror 0 (loadScript envEmpty "x" "bad/url.js" none initLoader).1).nextPromiseId,
              false⟩] ∧
     mapGet (fireOnload envEmpty
        (fireOnerror 0 (loadScript envEmpty "x" "bad/url.js" none initLoader).1).scripts.length
        (loadScript envEmpty "x" "good/url.js" none
          (fireOnerror 0 (loadScript envEmpty "x" "bad/url.js" none initLoader).1)).1).promises
        (fireOnerror 0 (loadScript envEmpty "x" "bad/url.js" none initLoader).1).nextPromiseId
       = some (PromiseState.resolved Value.vtrue) ∧
     isLoaded (fireOnload envEmpty
        (fireOnerror 0 (loadScript envEmpty "x" "bad/url.js" none initLoader).1).scripts.length
        (loadScript envEmpty "x" "good/url.js" none
          (fireOnerror 0 (loadScript envEmpty "x" "bad/url.js" none initLoader).1)).1) "x"
       = true) :=
  ⟨rfl, rfl,
   loadScript_failure_recovery
     (loadScript envEmpty "x" "bad/url.js" none initLoader).1 0
     ⟨"x", "bad/url.js", none, 0, false⟩ envEmpty envEmpty "good/url.js"
     (fireOnerror 0 (loadScript envEmpty "x" "bad/url.js" none initLoader).1)
     (loadScript envEmpty "x" "good/url.js" none
       (fireOnerror 0 (loadScript envEmpty "x" "bad/url.js" none initLoader).1)).1
     rfl rfl rfl rfl rfl⟩

/-- `const lib = checkFn ? checkFn() : true;` — the value the `onload`
handler caches and resolves with. -/
def onloadLib (env : GEnv) (check : CheckFn) : Value :=
  match check with
  | none => .vtrue
  | some g => env g

/-- C4 counterexample: a first request for `opencv` succeeds via the
presence check and resolves with the handle `window.cv`, but the loader
caches the literal `true`; a second request (no presence check) resolves
with that cached `true`, which is NOT the handle the earlier request
resolved with. -/
theorem loadScript_cached_value_mismatch :
    (loadScript envCV "opencv" "/assets/js/opencv.js" (some "cv") initLoader).2
      = CallResult.immediate (Value.vhandle 1) ∧
    (loadScript envEmpty "opencv" "/assets/js/opencv.js" none
       (loadScript envCV "opencv" "/assets/js/opencv.js" (some "cv") initLoader).1).2
      = CallResult.immediate Value.vtrue ∧
    Value.vtrue ≠ Value.vhandle 1 :=
  ⟨rfl, rfl, by decide⟩

/-- C4 amended: a `loadScript` call for a name that is already recorded
as loaded (and whose presence check is not truthy) resolves immediately
with the cached value and changes nothing — no new load attempt.  The
cached value equals the value the earlier request resolved with when that
request succeeded via a completed script load (`onload` caches exactly
the value it resolves); but when the earlier success came via the
presence check, the cached value is the sentinel `true` while the caller
was handed the handle. -/
theorem loadScript_cached_value_amended :
    (∀ (s : LoaderState) (env : GEnv) (name url : String) (check : CheckFn) (v : Value),
        truthyCheck env check = false →
        mapGet s.loadedLibraries name = some v →
        loadScript env name url check s = (s, CallResult.immediate v)) ∧
    (∀ (s : LoaderState) (env : GEnv) (i : Nat) (sc : Script),
        s.scripts.get? i = some sc → sc.settled = false →
        mapGet (fireOnload env i s).loadedLibraries sc.name
            = some (onloadLib env sc.check) ∧
        mapGet (fireOnload env i s).promises sc.promiseId
            = some (PromiseState.resolved (onloadLib env sc.check))) ∧
    (∀ (s : LoaderState) (env : GEnv) (name url g : String),
        (env g).truthy = true →
        mapGet (loadScript env name url (some g) s).1.loadedLibraries name
            = some Value.vtrue ∧
        (loadScript env name url (some g) s).2 = CallResult.immediate (env g)) := by
  refine ⟨?_, ?_, ?_⟩
  · intro s env name url check v hc hv
    simp [loadScript, hc, mapHas, hv]
  · intro s env i sc hsc hset
    have hsc' : s.scripts[i]? = some sc := by simpa using hsc
    cases hck : sc.check with
    | none =>
        constructor <;>
          simp [fireOnload, hsc', hset, hck, onloadLib, mapGet_mapSet_self]
    | some g =>
        constructor <;>
          simp [fireOnload, hsc', hset, hck, onloadLib, mapGet_mapSet_self]
  · intro s env name url g h
    constructor <;>
      simp [loadScript, truthyCheck, h, checkVal, mapGet_mapSet_self]

/-- Witness for `loadScript_cached_value_amended`: a cached-hit request
for `x` resolves with the cached handle without any state change. -/
theorem loadScript_cached_value_amended_witness :
    truthyCheck envEmpty (none : CheckFn) = false ∧
    mapGet ({ initLoader with
        loadedLibraries := [("x", Value.vhandle 5)] } : LoaderState).loadedLibraries "x"
      = some (Value.vhandle 5) ∧
    loadScript envEmpty "x" "u" none
        { initLoader with loadedLibraries := [("x", Value.vhandle 5)] }
      = ({ initLoader with loadedLibraries := [("x", Value.vhandle 5)] },
         CallResult.immediate (Value.vhandle 5)) :=
  ⟨rfl, rfl,
   loadScript_cached_value_amended.1
     { initLoader with loadedLibraries := [("x", Value.vhandle 5)] }
     envEmpty "x" "u" none (Value.vhandle 5) rfl rfl⟩

/-- C9: `unload(name)` while a script load for `name` is in flight does
not cancel the load (the injected script elements are untouched), makes
`isLoaded name` false, and when the in-flight script later fires `onload`
its handler re-records the library — `isLoaded name` becomes true again
without any new `loadScript` call. -/
theorem unload_during_inflight_reload (s : LoaderState) (i : Nat) (sc : Script)
    (env : GEnv)
    (hsc : s.scripts.get? i = some sc)
    (hset : sc.settled = false) :
    (unload sc.name s).scripts = s.scripts ∧
    isLoaded (unload sc.name s) sc.name = false ∧
    isLoaded (fireOnload env i (unload sc.name s)) sc.name = true := by
  refine ⟨rfl, by simp [unload, isLoaded, mapHas_mapDel_self], ?_⟩
  have hsc' : (unload sc.name s).scripts[i]? = some sc := by
    simpa [unload] using hsc
  simp [fireOnload, hsc', hset, isLoaded, mapHas_mapSet_self]

/-- Witness for `unload_during_inflight_reload`: a load of `y` is started,
`unload('y')` runs, then the script's `onload` fires. -/
theorem unload_during_inflight_reload_witness :
    (loadScript envEmpty "y" "/y.js" none initLoader).1.scripts.get? 0
      = some ⟨"y", "/y.js", none, 0, false⟩ ∧
    ((unload "y" (loadScript envEmpty "y" "/y.js" none initLoader).1).scripts
        = (loadScript envEmpty "y" "/y.js" none initLoader).1.scripts ∧
     isLoaded (unload "y" (loadScript envEmpty "y" "/y.js" none initLoader).1) "y" = false ∧
     isLoaded (fireOnload envEmpty 0
        (unload "y" (loadScript envEmpty "y" "/y.js" none initLoader).1)) "y" = true) :=
  ⟨rfl,
   unload_during_inflight_reload (loadScript envEmpty "y" "/y.js" none initLoader).1 0
     ⟨"y", "/y.js", none, 0, false⟩ envEmpty rfl rfl⟩

/-! ### Event trace semantics for the loader -/

/-- One event on the JS event loop touching the loader: a `loadScript`
call, a script element's `onload` or `onerror` firing, or an `unload`
call.  (`preload` factors through a `call` event — its idle callback
just invokes one of the `loadXxx` wrappers, i.e. `loadScript`.) -/
inductive LEvent where
  | call : GEnv → String → String → CheckFn → LEvent
  | onload : GEnv → Nat → LEvent
  | onerror : Nat → LEvent
  | unloadEv : String → LEvent

/-- State transition for one event. -/
def step (s : LoaderState) : LEvent → LoaderState
  | .call env name url check => (loadScript env name url check s).1
  | .onload env i => fireOnload env i s
  | .onerror i => fireOnerror i s
  | .unloadEv name => unload name s

/-- Whether executing event `e` in state `s` successfully resolves a
promise for library `name`: a `loadScript` call that resolves immediately
(presence check truthy, or the library already cached), or an unsettled
script element for `name` firing `onload`. -/
def stepResolves (s : LoaderState) (e : LEvent) (name : String) : Bool :=
  match e with
  | .call env n _ check =>
      n == name && (truthyCheck env check || mapHas s.loadedLibraries n)
  | .onload _ i =>
      match s.scripts.get? i with
      | some sc => sc.name == name && !sc.settled
      | none => false
  | .onerror _ => false
  | .unloadEv _ => false

/-- C7: `isLoaded` over any event trace — it is false in the initial
state; any event that neither successfully resolves `name` nor is
`unload(name)` leaves it unchanged (so it stays false while a load is in
flight and after a failed load, and stays true once set); any event that
successfully resolves `name` makes it true; and `unload(name)` makes it
false.  `isLoaded` itself is a pure observer of the state (its type is
`LoaderState → String → Bool`): it can trigger no load. -/
theorem isLoaded_lifecycle :
    (∀ name, isLoaded initLoader name = false) ∧
    (∀ (s : LoaderState) (e : LEvent) (name : String),
        stepResolves s e name = false → e ≠ LEvent.unloadEv name →
        isLoaded (step s e) name = isLoaded s name) ∧
    (∀ (s : LoaderState) (e : LEvent) (name : String),
        stepResolves s e name = true → isLoaded (step s e) name = true) ∧
    (∀ (s : LoaderState) (name : String),
        isLoaded (step s (LEvent.unloadEv name)) name = false) := by
  refine ⟨fun name => rfl, ?_, ?_, ?_⟩
  · intro s e name hres hne
    cases e with
    | call env n url check =>
        by_cases hn : n = name
        · subst hn
          have hres' : truthyCheck env check = false ∧
              mapHas s.loadedLibraries n = false := by
            simpa [stepResolves] using hres
          rcases mg : mapGet s.loadingPromises n with _ | pid <;>
            simp [step, loadScript, hres'.1, hres'.2, mg, isLoaded]
        · have hnn : ¬ n = name := hn
          by_cases ht : truthyCheck env check
          · simp [step, loadScript, ht, isLoaded,
              mapHas_mapSet_other _ _ _ _ (fun h => hnn h.symm)]
          · by_cases hl : mapHas s.loadedLibraries n
            · simp [step, loadScript, ht, hl, isLoaded]
            · rcases mg : mapGet s.loadingPromises n with _ | pid <;>
                simp [step, loadScript, ht, hl, mg, isLoaded]
    | onload env i =>
        cases hsc : s.scripts.get? i with
        | none =>
            have hsc' : s.scripts[i]? = none := by simpa using hsc
            simp [step, fireOnload, hsc']
        | some sc =>
            have hsc' : s.scripts[i]? = some sc := by simpa using hsc
            have hres' : sc.name = name → sc.settled = true := by
              simpa [stepResolves, hsc'] using hres
            by_cases hb : sc.settled
            · simp [step, fireOnload, hsc', hb]
            · have hnn : ¬ sc.name = name := fun h => hb (hres' h)
              simp [step, fireOnload, hsc', hb, isLoaded,
                mapHas_mapSet_other _ _ _ _ (fun h => hnn h.symm)]
    | onerror i =>
        cases hsc : s.scripts.get? i with
        | none =>
            have hsc' : s.scripts[i]? = none := by simpa using hsc
            simp [step, fireOnerror, hsc']
        | some sc =>
            have hsc' : s.scripts[i]? = some sc := by simpa using hsc
            by_cases hb : sc.settled <;> simp [step, fireOnerror, hsc', hb, isLoaded]
    | unloadEv n =>
        have hnn : ¬ n = name := fun h => hne (by rw [h])
        simp [step, unload, isLoaded,
          mapHas_mapDel_other _ _ _ (fun h => hnn h.symm)]
  · intro s e name hres
    cases e with
    | call env n url check =>
        have hres' : n = name ∧
            (truthyCheck env check || mapHas s.loadedLibraries n) = true := by
          simpa [stepResolves] using hres
        rcases hres' with ⟨hn, hor⟩
        subst hn
        by_cases ht : truthyCheck env check
        · simp [step, loadScript, ht, isLoaded, mapHas_mapSet_self]
        · have hl : mapHas s.loadedLibraries n = true := by
            simpa [ht] using hor
          simp [step, loadScript, ht, hl, isLoaded]
    | onload env i =>
        cases hsc : s.scripts.get? i with
        | none =>
            have hsc' : s.scripts[i]? = none := by simpa using hsc
            simp [stepResolves, hsc'] at hres
        | some sc =>
            have hsc' : s.scripts[i]? = some sc := by simpa using hsc
            have hres' : sc.name = name ∧ sc.settled = false := by
              simpa [stepResolves, hsc'] using hres
            rw [← hres'.1]
            simp [step, fireOnload, hsc', hres'.2, isLoaded, mapHas_mapSet_self]
    | onerror i => simp [stepResolves] at hres
    | unloadEv n => simp [stepResolves] at hres
  · intro s name
    simp [step, unload, isLoaded, mapHas_mapDel_self]

/-- Witness for `isLoaded_lifecycle`: an `onerror` for a non-existent
script leaves `isLoaded` unchanged, and a presence-check hit for
`opencv` makes it true. -/
theorem isLoaded_lifecycle_witness :
    stepResolves initLoader (LEvent.onerror 0) "x" = false ∧
    LEvent.onerror 0 ≠ LEvent.unloadEv "x" ∧
    isLoaded (step initLoader (LEvent.onerror 0)) "x" = isLoaded initLoader "x" ∧
    stepResolves initLoader
      (LEvent.call envCV "opencv" "/assets/js/opencv.js" (some "cv")) "opencv" = true ∧
    isLoaded (step initLoader
      (LEvent.call envCV "opencv" "/assets/js/opencv.js" (some "cv"))) "opencv" = true :=
  ⟨rfl, by simp, isLoaded_lifecycle.2.1 initLoader (LEvent.onerror 0) "x" rfl (by simp),
   rfl, isLoaded_lifecycle.2.2.1 initLoader
     (LEvent.call envCV "opencv" "/assets/js/opencv.js" (some "cv")) "opencv" rfl⟩

/-! ### `preload` -/

/-- The property keys of a `LazyLibraryLoader` instance for which
`typeof this[key] === 'function'`: the class's own prototype methods plus
the function-valued properties inherited from `Object.prototype`. -/
def loaderFunctionProps : List String :=
  ["constructor", "loadScript", "loadOpenCV", "loadFaceAPI", "loadTesseract",
   "loadJsPDF", "preload", "isLoaded", "unload",
   "hasOwnProperty", "isPrototypeOf", "propertyIsEnumerable",
   "toLocaleString", "toString", "valueOf"]

/-- `typeof this[key] === 'function'` on a `LazyLibraryLoader` instance. -/
def isFunctionProp (key : String) : Bool :=
  loaderFunctionProps.contains key

/-- The body of the closure `load` that `preload(method)` schedules via
`requestIdleCallback` (or `setTimeout`).  `if (typeof this[method] ===
'function')` guards the call: when the guard fails nothing at all
happens.  The four loader wrappers call `loadScript` with their fixed
name, url and presence check, and `.catch(() => {})` swallows any later
rejection, so no error escapes.  The remaining function-valued
properties, invoked with no arguments, either return a non-promise so
that reading `.catch` off the result throws a `TypeError` inside the idle
callback (`constructor` already throws when called without `new`) — the
returned Bool records that an error escaped inside the callback — or,
for `loadScript` itself, start a load whose name and url are the
`undefined` value, represented here by the reserved string "undefined"
(no caller in the repository uses it as a library name, and
`script.src = undefined` indeed requests the relative path "undefined").
Nothing is ever surfaced to `preload`'s caller. -/
def preloadCallback (env : GEnv) (key : String) (s : LoaderState) :
    LoaderState × Bool :=
  if isFunctionProp key = false then (s, false)
  else if key = "loadOpenCV" then
    ((loadScript env "opencv" "/assets/js/opencv.js" (some "cv") s).1, false)
  else if key = "loadFaceAPI" then
    ((loadScript env "faceapi"
        "https://cdn.jsdelivr.net/npm/face-api.js@0.22.2/dist/face-api.min.js"
        (some "faceapi") s).1, false)
  else if key = "loadTesseract" then
    ((loadScript env "tesseract"
        "https://cdn.jsdelivr.net/npm/tesseract.js@5.1.0/dist/tesseract.min.js"
        (some "Tesseract") s).1, false)
  else if key = "loadJsPDF" then
    ((loadScript env "jspdf" "/assets/js/jspdf.umd.min.js" (some "jspdf") s).1, false)
  else if key = "loadScript" then
    ((loadScript env "undefined" "undefined" none s).1, false)
  else if key = "unload" then (unload "undefined" s, true)
  else (s, true)

/-- C10: once the scheduled idle callback runs, `preload(key)` for a key
that does not name a function-valued property of the loader is a silent
no-op: the loader state is unchanged (so no load attempt is made) and no
error is raised. -/
theorem preload_unknown_key_noop (env : GEnv) (key : String) (s : LoaderState)
    (h : isFunctionProp key = false) :
    preloadCallback env key s = (s, false) := by
  simp [preloadCallback, h]

/-- Witness for `preload_unknown_key_noop`: the key `loadEverything`
names no method. -/
theorem preload_unknown_key_noop_witness :
    isFunctionProp "loadEverything" = false ∧
    preloadCallback envEmpty "loadEverything" initLoader = (initLoader, false) :=
  ⟨by decide, preload_unknown_key_noop envEmpty "loadEverything" initLoader (by decide)⟩

/-! ### Event listener manager (`EventListenerManager`, performance-utils.js) -/

/-- One DOM-level listener attachment `(element, type, callback, capture)`.
Elements and handler callbacks are identified by opaque ids (JS compares
both by reference identity); the `options` argument (`Object|boolean`) is
modelled by the capture flag `addEventListener`/`removeEventListener`
derive from it. -/
structure Attachment where
  el : Nat
  ev : String
  cb : Nat
  capture : Bool
deriving DecidableEq, Repr

/-- `element.addEventListener(type, handler, options)`: the DOM ignores
the call when an identical `(type, callback, capture)` listener is
already attached. -/
def addEventListener (d : List Attachment) (a : Attachment) : List Attachment :=
  if a ∈ d then d else d ++ [a]

/-- `element.removeEventListener(type, handler, options)`. -/
def removeEventListener (d : List Attachment) (a : Attachment) : List Attachment :=
  d.filter (fun b => b ≠ a)

/-- The handler callbacks invoked, in attachment order, when an event of
type `ev` is dispatched on element `el`. -/
def dispatch (d : List Attachment) (el : Nat) (ev : String) : List Nat :=
  (d.filter (fun a => a.el == el && a.ev == ev)).map (fun a => a.cb)

/-- One tracked listener entry `{ event, handler, options }`. -/
structure Entry where
  event : String
  handler : Nat
  options : Bool
deriving DecidableEq, Repr

/-- The fields of an `EventListenerManager` instance: the weak map from
element to its `Map` of `key → entry`, and the `listenerId` counter. -/
structure EMState where
  elementListeners : List (Nat × List (String × Entry))
  listenerId : Nat

/-- `new EventListenerManager()`. -/
def initEM : EMState := { elementListeners := [], listenerId := 0 }

/-- `EventListenerManager.add(element, event, handler, options = false)`.
Mirrors the source: return if the element is absent; look up (or create
and store) the element's listener map; build the key
`` `${event}_${this.listenerId++}` `` (the counter increments even when
the registration turns out to be a duplicate); scan the map for an entry
with the same event and handler; if found, return without attaching;
otherwise attach to the DOM and record the entry. -/
def emAdd (m : EMState) (d : List Attachment) (element : Option Nat)
    (event : String) (handler : Nat) (options : Bool) :
    EMState × List Attachment :=
  match element with
  | none => (m, d)
  | some el =>
      match mapGet m.elementListeners el with
      | none =>
          ({ elementListeners := mapSet m.elementListeners el
               [(event ++ "_" ++ toString m.listenerId, ⟨event, handler, options⟩)],
             listenerId := m.listenerId + 1 },
           addEventListener d ⟨el, event, handler, options⟩)
      | some listeners =>
          if listeners.any (fun p => p.2.event == event && p.2.handler == handler) then
            ({ m with listenerId := m.listenerId + 1 }, d)
          else
            ({ elementListeners := mapSet m.elementListeners el
                 (listeners ++ [(event ++ "_" ++ toString m.listenerId,
                    ⟨event, handler, options⟩)]),
               listenerId := m.listenerId + 1 },
             addEventListener d ⟨el, event, handler, options⟩)

/-- `EventListenerManager.remove(element, event, handler)`: detach every
matching entry (with the options recorded at add time) and delete the
collected keys. -/
def emRemove (m : EMState) (d : List Attachment) (element : Option Nat)
    (event : String) (handler : Nat) : EMState × List Attachment :=
  match element with
  | none => (m, d)
  | some el =>
      match mapGet m.elementListeners el with
      | none => (m, d)
      | some listeners =>
          let kept := listeners.filter
            (fun p => !(p.2.event == event && p.2.handler == handler))
          let d2 := listeners.foldl
            (fun acc p =>
              if p.2.event == event && p.2.handler == handler then
                removeEventListener acc ⟨el, event, handler, p.2.options⟩
              else acc) d
          ({ m with elementListeners := mapSet m.elementListeners el kept }, d2)

/-- `EventListenerManager.removeAllForElement(element)`: detach every
recorded handler (with its recorded options) and drop the element's map. -/
def emRemoveAllForElement (m : EMState) (d : List Attachment)
    (element : Option Nat) : EMState × List Attachment :=
  match element with
  | none => (m, d)
  | some el =>
      match mapGet m.elementListeners el with
      | none => (m, d)
      | some listeners =>
          let d2 := listeners.foldl
            (fun acc p =>
              removeEventListener acc ⟨el, p.2.event, p.2.handler, p.2.options⟩) d
          ({ m with elementListeners := mapDel m.elementListeners el }, d2)

/-- The entries the registry holds for `el` (empty when untracked). -/
def entriesFor (m : EMState) (el : Nat) : List (String × Entry) :=
  (mapGet m.elementListeners el).getD []

/-- Number of registry entries for `el` matching `(event, handler)`. -/
def regCount (m : EMState) (el : Nat) (event : String) (handler : Nat) : Nat :=
  ((entriesFor m el).filter
    (fun p => p.2.event == event && p.2.handler == handler)).length

/-- How many times callback `handler` is invoked when one event of type
`ev` is dispatched on `el`. -/
def fireCount (d : List Attachment) (el : Nat) (ev : String) (handler : Nat) : Nat :=
  ((dispatch d el ev).filter (fun x => x == handler)).length

/-- C8: `add`, `remove` and `removeAllForElement` called with an absent
element (null/undefined) are silent no-ops — each returns at its
`if (!element) return;` guard without raising, leaving both the registry
state and the DOM attachments unchanged. -/
theorem absent_element_noop :
    (∀ (m : EMState) (d : List Attachment) (event : String) (handler : Nat)
        (options : Bool), emAdd m d none event handler options = (m, d)) ∧
    (∀ (m : EMState) (d : List Attachment) (event : String) (handler : Nat),
        emRemove m d none event handler = (m, d)) ∧
    (∀ (m : EMState) (d : List Attachment),
        emRemoveAllForElement m d none = (m, d)) :=
  ⟨fun _ _ _ _ _ => rfl, fun _ _ _ _ => rfl, fun _ _ => rfl⟩

theorem filter_len_zero_any_false {α : Type} (l : List α) (f : α → Bool)
    (hz : (l.filter f).length = 0) : l.any f = false := by
  rw [List.any_eq_false]
  intro x hx hfx
  have hm : x ∈ l.filter f := List.mem_filter.mpr ⟨hx, hfx⟩
  rw [List.length_eq_zero] at hz
  simp [hz] at hm

/-- Counting invocations through `dispatch` agrees with counting the
attachments that match element, event type and callback. -/
theorem fireCount_eq (d : List Attachment) (el : Nat) (ev : String) (cb : Nat) :
    fireCount d el ev cb
      = (d.filter (fun a => (a.el == el && a.ev == ev) && a.cb == cb)).length := by
  induction d with
  | nil => rfl
  | cons a rest ih =>
      by_cases h1 : (a.el == el && a.ev == ev) = true
      · by_cases h2 : (a.cb == cb) = true
        · simp only [fireCount, dispatch, List.filter_cons, h1, h2, Bool.and_self,
            List.map_cons, if_true, List.length_cons]
          simpa [fireCount, dispatch, h2] using ih
        · simp only [fireCount, dispatch, List.filter_cons, h1, h2, List.map_cons,
            Bool.and_false, if_true, if_false]
          simpa [fireCount, dispatch, h2] using ih
      · simp only [fireCount, dispatch, List.filter_cons, h1, Bool.false_and, if_false]
        simpa [fireCount, dispatch] using ih

theorem not_mem_of_fireCount_zero (d : List Attachment) (el : Nat) (ev : String)
    (cb : Nat) (o : Bool) (hz : fireCount d el ev cb = 0) :
    (⟨el, ev, cb, o⟩ : Attachment) ∉ d := by
  intro hmem
  rw [fireCount_eq, List.length_eq_zero] at hz
  have hm : (⟨el, ev, cb, o⟩ : Attachment)
      ∈ d.filter (fun a => (a.el == el && a.ev == ev) && a.cb == cb) :=
    List.mem_filter.mpr ⟨hmem, by simp⟩
  simp [hz] at hm

theorem fireCount_append_match (d : List Attachment) (el : Nat) (ev : String)
    (cb : Nat) (o : Bool) :
    fireCount (d ++ [⟨el, ev, cb, o⟩]) el ev cb = fireCount d el ev cb + 1 := by
  rw [fireCount_eq, fireCount_eq]
  simp [List.filter_append]

/-- A first registration of `(el, event, handler)` when no matching entry
and no matching attachment exist: the entry is recorded and the handler
attached. -/
theorem emAdd_fresh (m : EMState) (d : List Attachment) (el : Nat)
    (event : String) (handler : Nat) (o : Bool)
    (hreg : regCount m el event handler = 0)
    (hnd : (⟨el, event, handler, o⟩ : Attachment) ∉ d) :
    emAdd m d (some el) event handler o
      = ({ elementListeners := mapSet m.elementListeners el
             (entriesFor m el ++ [(event ++ "_" ++ toString m.listenerId,
                ⟨event, handler, o⟩)]),
           listenerId := m.listenerId + 1 },
         d ++ [⟨el, event, handler, o⟩]) := by
  have hany : (entriesFor m el).any
      (fun p => p.2.event == event && p.2.handler == handler) = false :=
    filter_len_zero_any_false _ _ hreg
  cases hel : mapGet m.elementListeners el with
  | none => simp [emAdd, hel, entriesFor, addEventListener, hnd]
  | some l =>
      have hany' :
          l.any (fun p => p.2.event == event && p.2.handler == handler) = false := by
        simpa [entriesFor, hel] using hany
      simp [emAdd, hel, hany', entriesFor, addEventListener, hnd]

/-- A duplicate registration: the scan finds a matching entry, the
counter still advances, nothing else changes. -/
theorem emAdd_dup (m : EMState) (d : List Attachment) (el : Nat)
    (event : String) (handler : Nat) (o : Bool) (l : List (String × Entry))
    (hel : mapGet m.elementListeners el = some l)
    (hany : l.any (fun p => p.2.event == event && p.2.handler == handler) = true) :
    emAdd m d (some el) event handler o
      = ({ m with listenerId := m.listenerId + 1 }, d) := by
  simp [emAdd, hel, hany]

/-- C5: idempotent registration.  Starting from a state with no entry and
no attachment for `(el, event, handler)`, calling `add` twice with the
same element, event type and handler (any options) records exactly one
entry, attaches the listener exactly once — the second call changes
neither the registry's entry map nor the DOM (only the internal
`listenerId` counter advances) — and so dispatching one `event` on `el`
invokes the handler exactly once. -/
theorem emAdd_idempotent (m m1 m2 : EMState) (d d1 d2 : List Attachment)
    (el : Nat) (event : String) (handler : Nat) (o1 o2 : Bool)
    (hreg : regCount m el event handler = 0)
    (hdom : fireCount d el event handler = 0)
    (hc1 : emAdd m d (some el) event handler o1 = (m1, d1))
    (hc2 : emAdd m1 d1 (some el) event handler o2 = (m2, d2)) :
    m2.elementListeners = m1.elementListeners ∧ d2 = d1 ∧
    regCount m2 el event handler = 1 ∧
    fireCount d2 el event handler = 1 := by
  have hnd : (⟨el, event, handler, o1⟩ : Attachment) ∉ d :=
    not_mem_of_fireCount_zero d el event handler o1 hdom
  rw [emAdd_fresh m d el event handler o1 hreg hnd] at hc1
  injection hc1 with hm1 hd1
  have hel1 : mapGet m1.elementListeners el
      = some (entriesFor m el ++ [(event ++ "_" ++ toString m.listenerId,
          ⟨event, handler, o1⟩)]) := by
    rw [← hm1]
    exact mapGet_mapSet_self _ _ _
  have hany1 : (entriesFor m el ++ [(event ++ "_" ++ toString m.listenerId,
      (⟨event, handler, o1⟩ : Entry))]).any
      (fun p => p.2.event == event && p.2.handler == handler) = true := by
    simp
  rw [emAdd_dup m1 d1 el event handler o2 _ hel1 hany1] at hc2
  injection hc2 with hm2 hd2
  have hfilter : ((entriesFor m el).filter
      (fun p => p.2.event == event && p.2.handler == handler)) = [] :=
    List.length_eq_zero.mp hreg
  refine ⟨by rw [← hm2], by rw [← hd2], ?_, ?_⟩
  · rw [← hm2]
    show regCount { m1 with listenerId := m1.listenerId + 1 } el event handler = 1
    simp only [regCount, entriesFor, hel1, Option.getD_some, List.filter_append]
    have hfilter' : List.filter (fun p => p.2.event == event && p.2.handler == handler)
        ((mapGet m.elementListeners el).getD []) = [] := by
      simpa [entriesFor] using hfilter
    simp [hfilter']
  · rw [← hd2, ← hd1]
    rw [fireCount_append_match]
    rw [hdom]

/-- Witness for `emAdd_idempotent`: `add(el, 'click', h)` twice on a
fresh registry and empty DOM. -/
theorem emAdd_idempotent_witness :
    regCount initEM 1 "click" 7 = 0 ∧
    fireCount [] 1 "click" 7 = 0 ∧
    ((emAdd (emAdd initEM [] (some 1) "click" 7 false).1
        (emAdd initEM [] (some 1) "click" 7 false).2
        (some 1) "click" 7 false).1.elementListeners
       = (emAdd initEM [] (some 1) "click" 7 false).1.elementListeners ∧
     (emAdd (emAdd initEM [] (some 1) "click" 7 false).1
        (emAdd initEM [] (some 1) "click" 7 false).2
        (some 1) "click" 7 false).2
       = (emAdd initEM [] (some 1) "click" 7 false).2 ∧
     regCount (emAdd (emAdd initEM [] (some 1) "click" 7 false).1
        (emAdd initEM [] (some 1) "click" 7 false).2
        (some 1) "click" 7 false).1 1 "click" 7 = 1 ∧
     fireCount (emAdd (emAdd initEM [] (some 1) "click" 7 false).1
        (emAdd initEM [] (some 1) "click" 7 false).2
        (some 1) "click" 7 false).2 1 "click" 7 = 1) :=
  ⟨rfl, rfl,
   emAdd_idempotent initEM
     (emAdd initEM [] (some 1) "click" 7 false).1
     (emAdd (emAdd initEM [] (some 1) "click" 7 false).1
        (emAdd initEM [] (some 1) "click" 7 false).2 (some 1) "click" 7 false).1
     []
     (emAdd initEM [] (some 1) "click" 7 false).2
     (emAdd (emAdd initEM [] (some 1) "click" 7 false).1
        (emAdd initEM [] (some 1) "click" 7 false).2 (some 1) "click" 7 false).2
     1 "click" 7 false false rfl rfl rfl rfl⟩

theorem mem_removeEventListener (d : List Attachment) (x a : Attachment) :
    a ∈ removeEventListener d x ↔ a ∈ d ∧ a ≠ x := by
  simp [removeEventListener, List.mem_filter]

/-- Membership after the bulk-removal fold of `removeAllForElement`. -/
theorem mem_removeAll_fold (L : List (String × Entry)) (d : List Attachment)
    (el : Nat) (a : Attachment) :
    a ∈ L.foldl (fun acc p =>
        removeEventListener acc ⟨el, p.2.event, p.2.handler, p.2.options⟩) d
    ↔ a ∈ d ∧ ∀ p ∈ L, a ≠ ⟨el, p.2.event, p.2.handler, p.2.options⟩ := by
  induction L generalizing d with
  | nil => simp
  | cons q rest ih =>
      rw [List.foldl_cons, ih, mem_removeEventListener, List.forall_mem_cons]
      tauto

/-- C6: `removeAllForElement(el)` detaches every attachment the registry
recorded for `el` (each with its recorded options), clears all of `el`'s
entries, and — provided every DOM attachment on `el` was made through the
registry (the invariant registry-managed elements satisfy) — leaves no
handler to be invoked for any subsequent event dispatched on `el`.
Calling it on an untracked element is a complete no-op. -/
theorem emRemoveAll_detaches (m : EMState) (d : List Attachment) (el : Nat)
    (hcons : ∀ a ∈ d, a.el = el →
        ∃ p ∈ entriesFor m el,
          p.2.event = a.ev ∧ p.2.handler = a.cb ∧ p.2.options = a.capture) :
    entriesFor (emRemoveAllForElement m d (some el)).1 el = [] ∧
    (∀ p ∈ entriesFor m el,
        (⟨el, p.2.event, p.2.handler, p.2.options⟩ : Attachment)
          ∉ (emRemoveAllForElement m d (some el)).2) ∧
    (∀ ev, dispatch (emRemoveAllForElement m d (some el)).2 el ev = []) ∧
    (mapGet m.elementListeners el = none →
        emRemoveAllForElement m d (some el) = (m, d)) := by
  cases hel : mapGet m.elementListeners el with
  | none =>
      refine ⟨by simp [emRemoveAllForElement, hel, entriesFor], ?_, ?_, ?_⟩
      · intro p hp
        simp [entriesFor, hel] at hp
      · intro ev
        have hnil : (emRemoveAllForElement m d (some el)).2 = d := by
          simp [emRemoveAllForElement, hel]
        rw [hnil]
        rw [dispatch, List.map_eq_nil_iff, List.filter_eq_nil_iff]
        intro a ha hmatch
        have hael : a.el = el := by
          simp only [Bool.and_eq_true, beq_iff_eq] at hmatch
          exact hmatch.1
        obtain ⟨p, hp, _⟩ := hcons a ha hael
        simp [entriesFor, hel] at hp
      · intro _
        simp [emRemoveAllForElement, hel]
  | some listeners =>
      have hL : entriesFor m el = listeners := by simp [entriesFor, hel]
      have hsnd : (emRemoveAllForElement m d (some el)).2
          = listeners.foldl (fun acc p =>
              removeEventListener acc ⟨el, p.2.event, p.2.handler, p.2.options⟩) d := by
        simp [emRemoveAllForElement, hel]
      refine ⟨?_, ?_, ?_, ?_⟩
      · have : (emRemoveAllForElement m d (some el)).1
            = { m with elementListeners := mapDel m.elementListeners el } := by
          simp [emRemoveAllForElement, hel]
        rw [this]
        simp [entriesFor, mapGet_mapDel_self]
      · intro p hp hmem
        rw [hsnd, mem_removeAll_fold] at hmem
        exact hmem.2 p (hL ▸ hp) rfl
      · intro ev
        rw [hsnd]
        rw [dispatch, List.map_eq_nil_iff, List.filter_eq_nil_iff]
        intro a ha hmatch
        rw [mem_removeAll_fold] at ha
        have hael : a.el = el := by
          have := hmatch
          simp only [Bool.and_eq_true, beq_iff_eq] at this
          exact this.1
        obtain ⟨p, hp, he, hh, ho⟩ := hcons a ha.1 hael
        have : a = ⟨el, p.2.event, p.2.handler, p.2.options⟩ := by
          cases a
          simp_all
        exact ha.2 p (hL ▸ hp) this
      · intro hnone
        simp [hel] at hnone

/-- Registry state for the `emRemoveAll_detaches` witness: two handlers
recorded on element 2 (with the keys and counter `add` would have
produced). -/
def emW : EMState :=
  { elementListeners :=
      [(2, [("click_0", ⟨"click", 7, false⟩), ("scroll_1", ⟨"scroll", 8, true⟩)])],
    listenerId := 2 }

/-- DOM attachments matching `emW`: both were made through the registry. -/
def domW : List Attachment :=
  [⟨2, "click", 7, false⟩, ⟨2, "scroll", 8, true⟩]

/-- Witness for `emRemoveAll_detaches`: clearing element 2 removes both
recorded handlers and leaves nothing to fire. -/
theorem emRemoveAll_detaches_witness :
    (∀ a ∈ domW, a.el = 2 →
        ∃ p ∈ entriesFor emW 2,
          p.2.event = a.ev ∧ p.2.handler = a.cb ∧ p.2.options = a.capture) ∧
    (entriesFor (emRemoveAllForElement emW domW (some 2)).1 2 = [] ∧
     (∀ p ∈ entriesFor emW 2,
        (⟨2, p.2.event, p.2.handler, p.2.options⟩ : Attachment)
          ∉ (emRemoveAllForElement emW domW (some 2)).2) ∧
     (∀ ev, dispatch (emRemoveAllForElement emW domW (some 2)).2 2 ev = []) ∧
     (mapGet emW.elementListeners 2 = none →
        emRemoveAllForElement emW domW (some 2) = (emW, domW))) :=
  ⟨by decide, emRemoveAll_detaches emW domW 2 (by decide)⟩
